import Mathlib

/-!
Shallow embedding of the investment-opportunity pipeline:

* `src/app.py` — metrics engine (`AnalisadorInvestimentos.calcular_metricas_segmento`)
  and signal generator (`AnalisadorInvestimentos.gerar_oportunidades`);
* `src/data_collector.py` — `YahooFinanceCollector` (instrument get-or-create,
  per-row deduplicated bar ingestion, the full-collection entry point);
* `src/data_loader.py` — column normalization of `IndiceManager.baixar_dados_indices`.

Machine floats produced by the pandas return pipeline are modelled by `PFloat`
(a rational, `+inf`, `-inf`, or NaN) with IEEE-style propagation; SQL tables are
modelled as lists of rows; a fallible conversion (`float(...)`, `int(...)`,
`row['Date'].date()`) is modelled by `Option`.
-/

namespace Invest

/-- Result of a pandas float computation: a finite value (kept exact as a
rational), one of the two infinities, or NaN. -/
inductive PFloat where
  | finite (q : ℚ)
  | inf
  | neginf
  | nan
deriving DecidableEq

def PFloat.isNan : PFloat → Bool
  | .nan => true
  | _ => false

def PFloat.isInf : PFloat → Bool
  | .inf => true
  | _ => false

def PFloat.isNegInf : PFloat → Bool
  | .neginf => true
  | _ => false

/-- IEEE float comparison `x < y`: any comparison involving NaN is false;
`-inf` is below every number and `+inf`, `+inf` is below nothing. -/
def PFloat.lt : PFloat → PFloat → Bool
  | .finite a, .finite b => decide (a < b)
  | .finite _, .inf => true
  | .neginf, .finite _ => true
  | .neginf, .inf => true
  | _, _ => false

/-- IEEE float equality: NaN is equal to nothing, itself included. -/
def PFloat.eqF : PFloat → PFloat → Bool
  | .finite a, .finite b => decide (a = b)
  | .inf, .inf => true
  | .neginf, .neginf => true
  | _, _ => false

/-- IEEE float comparison `x ≤ y`. -/
def PFloat.le (x y : PFloat) : Bool := PFloat.lt x y || PFloat.eqF x y

/-- Python `abs` on a float (`abs(nan)` is NaN, `abs(±inf)` is `+inf`). -/
def PFloat.absF : PFloat → PFloat
  | .finite a => .finite |a|
  | .inf => .inf
  | .neginf => .inf
  | .nan => .nan

/-- Float multiplication by a positive rational literal (the code's `1.5` and
`0.8`): infinities keep their sign, NaN stays NaN. -/
def PFloat.mulConst : PFloat → ℚ → PFloat
  | .finite a, k => .finite (a * k)
  | .inf, _ => .inf
  | .neginf, _ => .neginf
  | .nan, _ => .nan

/-- `float(row[3]) if row[3] else 0` (app.py line 138): a NULL close and a zero
close both coerce to `0` (Python truthiness). -/
def coerceFech : Option ℚ → ℚ
  | none => 0
  | some q => if q = 0 then 0 else q

/-- One step of pandas `pct_change() * 100` (app.py line 148):
`(cur - prev) / prev * 100`, with IEEE division semantics when the previous
value is zero (`x/0 = +inf` for `x > 0`, `-inf` for `x < 0`, NaN for `0/0`). -/
def pctRatio (prev cur : ℚ) : PFloat :=
  if prev = 0 then
    if 0 < cur then .inf else if cur < 0 then .neginf else .nan
  else .finite ((cur - prev) / prev * 100)

/-- `df.groupby('Ticker')['Fechamento'].pct_change() * 100`: each row changes
relative to the previous row of the same ticker; a ticker's first row is NaN.
`seen` lists the tickers already passed with their most recent close. -/
def pctChangeGroup : List (String × ℚ) → List (String × ℚ) → List PFloat
  | [], _ => []
  | (t, c) :: rest, seen =>
    (match seen.find? (fun p => p.1 == t) with
     | none => PFloat.nan
     | some p => pctRatio p.2 c) :: pctChangeGroup rest ((t, c) :: seen)

/-- The values a skipna pandas aggregate actually consumes: everything that is
not NaN. -/
def definedVals (xs : List PFloat) : List PFloat :=
  xs.filter (fun x => ! x.isNan)

def finitesOf (xs : List PFloat) : List ℚ :=
  xs.filterMap (fun x => match x with | .finite q => some q | _ => none)

/-- pandas `Series.mean()` (skipna): NaN on an all-NaN series; an infinity of a
single sign dominates the sum; infinities of both signs give NaN. -/
def pmean (xs : List PFloat) : PFloat :=
  let d := definedVals xs
  if d.length = 0 then .nan
  else if d.any PFloat.isInf && d.any PFloat.isNegInf then .nan
  else if d.any PFloat.isInf then .inf
  else if d.any PFloat.isNegInf then .neginf
  else .finite ((finitesOf d).sum / (d.length : ℚ))

/-- Square of pandas `Series.std()` (skipna, ddof = 1): the sample variance of
the non-NaN values; NaN when fewer than two such values remain or when an
infinity is present (its deviation from the infinite mean is NaN).  The code's
`VolatilidadeMedia` is the real square root of this quantity, so it is zero,
infinite, or NaN exactly when this is, and comparisons `std < k` for `k > 0`
are equivalent to `var < k^2`. -/
def pvarOf (xs : List PFloat) : PFloat :=
  let d := definedVals xs
  if d.length ≤ 1 then .nan
  else if d.any PFloat.isInf || d.any PFloat.isNegInf then .nan
  else
    let q := finitesOf d
    let m := q.sum / (q.length : ℚ)
    .finite ((q.map (fun x => (x - m) ^ 2)).sum / ((q.length : ℚ) - 1))

/-- One row of `obter_dados_segmento` as consumed by
`calcular_metricas_segmento`: `row[0]` Ticker, `row[2]` DataQuotacao (dates
abstracted to naturals), `row[3]` Fechamento (nullable), `row[5]` Volume
(nullable). -/
structure DadoRow where
  Ticker : String
  DataQuotacao : ℕ
  Fechamento : Option ℚ
  Volume : Option ℤ
deriving DecidableEq

/-- The metrics dict of `calcular_metricas_segmento`.  `Retornos` is the
`df['Retorno']` column; `VolatilidadeVar` is the square of the code's
`VolatilidadeMedia` (see `pvarOf`); `VolumeTotal` is the skipna sum (a NULL
volume contributes 0). -/
structure Metricas where
  Retornos : List PFloat
  RetornoMedio : PFloat
  VolatilidadeVar : PFloat
  PrecoMaximo : Option ℚ
  PrecoMinimo : Option ℚ
  VolumeTotal : ℤ
deriving DecidableEq

/-- `AnalisadorInvestimentos.calcular_metricas_segmento` (app.py lines
127-158), as a function of the queried segment rows: `None` when the query
returned no rows, otherwise the metrics dict. -/
def calcular_metricas_segmento (dados : List DadoRow) : Option Metricas :=
  match dados with
  | [] => none
  | _ =>
    let pares := dados.map (fun r => (r.Ticker, coerceFech r.Fechamento))
    let retornos := pctChangeGroup pares []
    some {
      Retornos := retornos
      RetornoMedio := pmean retornos
      VolatilidadeVar := pvarOf retornos
      PrecoMaximo := (pares.map Prod.snd).max?
      PrecoMinimo := (pares.map Prod.snd).min?
      VolumeTotal := (dados.map (fun r => r.Volume.getD 0)).sum
    }

inductive Tipo where
  | COMPRA
  | VENDA
  | HOLD
deriving DecidableEq

inductive Risco where
  | BAIXO
  | MEDIO
  | ALTO
deriving DecidableEq

/-- The advisory record built by `gerar_oportunidades` (constant title and
description strings omitted).  `potencial_retorno` is a float value computed
from `RetornoMedio`, so it can itself be infinite or NaN. -/
structure Oportunidade where
  tipo : Tipo
  potencial_retorno : PFloat
  nivel_risco : Risco
  confianca : ℚ
deriving DecidableEq

/-- `AnalisadorInvestimentos.gerar_oportunidades` (app.py lines 160-208), as a
function of the two float metric values it reads (`RetornoMedio`,
`VolatilidadeMedia`), which the metrics engine can reachably produce as NaN or
infinity: Python float comparisons are IEEE (`PFloat.lt`, false on NaN).
`if not metricas: return []` maps `None` to the empty list; otherwise exactly
one record is produced.  `1.5 = 3/2`, `0.8 = 4/5`, `0.85 = 17/20`,
`0.70 = 7/10`, `0.55 = 11/20`. -/
def gerar_oportunidades (metricas : Option (PFloat × PFloat)) : List Oportunidade :=
  match metricas with
  | none => []
  | some (retorno_medio, volatilidade) =>
    let tp : Tipo × PFloat :=
      if PFloat.lt (.finite 2) retorno_medio then (.COMPRA, retorno_medio.mulConst (3 / 2))
      else if PFloat.lt retorno_medio (.finite (-1)) then
        (.VENDA, retorno_medio.absF.mulConst (4 / 5))
      else (.HOLD, retorno_medio)
    let rc : Risco × ℚ :=
      if PFloat.lt volatilidade (.finite 2) then (.BAIXO, 17 / 20)
      else if PFloat.lt volatilidade (.finite 5) then (Risco.MEDIO, 7 / 10)
      else (.ALTO, 11 / 20)
    [{ tipo := tp.1, potencial_retorno := tp.2, nivel_risco := rc.1, confianca := rc.2 }]

/-- A raw numeric cell of the provider DataFrame: a number, NaN, or a value
that `float()` / `int()` cannot parse. -/
inductive RawVal where
  | num (q : ℚ)
  | nan
  | bad
deriving DecidableEq

/-- One provider bar as read by `salvar_historico_precos` (`row['Date']`,
`row['Open']`, …).  `Date` is `none` when `row['Date'].date()` raises.
`AdjClose` is the bar's provider-side adjusted close; the function never reads
it (it re-uses `row['Close']` for the adjusted-close column). -/
structure RawRow where
  Date : Option ℕ
  Open : RawVal
  High : RawVal
  Low : RawVal
  Close : RawVal
  AdjClose : RawVal
  Volume : RawVal
deriving DecidableEq

/-- `float(x) if pd.notna(x) else None`; the outer `none` means the conversion
raised. -/
def parseF : RawVal → Option (Option ℚ)
  | .num q => some (some q)
  | .nan => some none
  | .bad => none

/-- Python `int()` truncation toward zero. -/
def truncQ (q : ℚ) : ℤ := if 0 ≤ q then ⌊q⌋ else ⌈q⌉

/-- `int(x) if pd.notna(x) else 0`: a missing volume becomes the integer 0,
never NULL. -/
def parseVol : RawVal → Option ℤ
  | .num q => some (truncQ q)
  | .nan => some 0
  | .bad => none

structure ParsedFields where
  abertura : Option ℚ
  alta : Option ℚ
  baixa : Option ℚ
  fechamento : Option ℚ
  volume : ℤ
deriving DecidableEq

/-- Building the INSERT parameter dict (data_collector.py lines 158-168): any
conversion that raises aborts this row only. -/
def parseRowFields (r : RawRow) : Option ParsedFields := do
  let a ← parseF r.Open
  let h ← parseF r.High
  let l ← parseF r.Low
  let c ← parseF r.Close
  let v ← parseVol r.Volume
  pure ⟨a, h, l, c, v⟩

/-- A stored `HistoricoPrecos` row (identity and insertion timestamp omitted). -/
structure Bar where
  IdIndice : ℕ
  DataQuotacao : ℕ
  Abertura : Option ℚ
  Alta : Option ℚ
  Baixa : Option ℚ
  Fechamento : Option ℚ
  FechamentoAjustado : Option ℚ
  Volume : Option ℤ
deriving DecidableEq

abbrev Store := List Bar

/-- The INSERT row: `fechamento_ajustado` is `float(row['Close'])` again, and
`volume` is always non-NULL. -/
def mkBar (idI d : ℕ) (p : ParsedFields) : Bar :=
  ⟨idI, d, p.abertura, p.alta, p.baixa, p.fechamento, p.fechamento, some p.volume⟩

/-- `SELECT COUNT(*) FROM HistoricoPrecos WHERE IdIndice = :id AND
DataQuotacao = :data` is positive. -/
def hasKey (st : Store) (idI d : ℕ) : Bool :=
  st.any (fun b => b.IdIndice == idI && b.DataQuotacao == d)

structure SalvarAcc where
  st : Store
  inseridos : ℕ
  duplicados : ℕ
deriving DecidableEq

/-- One iteration of the row loop of `salvar_historico_precos`: a malformed
date fails the existence check (row skipped, uncounted); an existing
`(IdIndice, DataQuotacao)` key counts a duplicate; otherwise the parsed row is
inserted, a conversion failure skipping the row uncounted. -/
def processRow (idI : ℕ) (acc : SalvarAcc) (r : RawRow) : SalvarAcc :=
  match r.Date with
  | none => acc
  | some d =>
    if hasKey acc.st idI d then
      { acc with duplicados := acc.duplicados + 1 }
    else
      match parseRowFields r with
      | some p => ⟨acc.st ++ [mkBar idI d p], acc.inseridos + 1, acc.duplicados⟩
      | none => acc

/-- `salvar_historico_precos` (data_collector.py lines 108-183): fold the row
loop over the DataFrame starting from zero counters.  The final `st` is the
committed table; `inseridos`/`duplicados` are the two counts the terminal
summary logs. -/
def salvar_historico_precos (idI : ℕ) (df : List RawRow) (st : Store) : SalvarAcc :=
  df.foldl (processRow idI) ⟨st, 0, 0⟩

/-- `salvar_historico_precos` under an explicit store-connectivity flag: its
outer `except` logs and re-raises, so a store failure surfaces as `.error`. -/
def salvarE (connOk : Bool) (idI : ℕ) (df : List RawRow) (st : Store) :
    Except String SalvarAcc :=
  if connOk then .ok (salvar_historico_precos idI df st) else .error "store connectivity"

/-- `coletar_indice_completo`, save step (data_collector.py lines 195-214),
after the instrument id and the download are obtained: `if not df.empty` guards
the save, and the surrounding `except Exception as e: logger.error(...)` has no
`raise`, so the function always returns normally. -/
def coletar_indice_completo (connOk : Bool) (idI : ℕ) (df : List RawRow) (st : Store) :
    Except String Store :=
  match (if df.isEmpty then Except.ok ⟨st, 0, 0⟩ else salvarE connOk idI df st) with
  | .ok acc => .ok acc.st
  | .error _ => .ok st

/-- An arbitrary sequence of `salvar_historico_precos` batches against one
store. -/
def applyBatches (calls : List (ℕ × List RawRow)) (st : Store) : Store :=
  calls.foldl (fun s c => (salvar_historico_precos c.1 c.2 s).st) st

def keysOf (st : Store) : List (ℕ × ℕ) :=
  st.map (fun b => (b.IdIndice, b.DataQuotacao))

/-- A stored `Indices` row (creation timestamp omitted). -/
structure IndiceRow where
  IdIndice : ℕ
  Ticker : String
  Descricao : String
  Pais : String
  Ativo : Bool
deriving DecidableEq

/-- The SQL Server identity column: next id after the existing ones. -/
def nextId (tbl : List IndiceRow) : ℕ :=
  tbl.foldl (fun m r => max m r.IdIndice) 0 + 1

/-- `adicionar_indice` (data_collector.py lines 29-74): SELECT by ticker; on a
hit return the stored id touching nothing; otherwise INSERT `(ticker,
descricao, pais, Ativo=1)` and return the new id. -/
def adicionar_indice (tbl : List IndiceRow) (ticker descricao pais : String) :
    ℕ × List IndiceRow :=
  match tbl.find? (fun r => r.Ticker == ticker) with
  | some r => (r.IdIndice, tbl)
  | none =>
    let newId := nextId tbl
    (newId, tbl ++ [⟨newId, ticker, descricao, pais, true⟩])

/-- `pat` (already lowercase) occurs contiguously in `s` lowercased — the
Python test `'adj' in str(col).lower()`. -/
def startsWithChars : List Char → List Char → Bool
  | [], _ => true
  | _ :: _, [] => false
  | a :: as, b :: bs => (a == b) && startsWithChars as bs

def occursInChars (pat : List Char) : List Char → Bool
  | [] => pat.isEmpty
  | b :: bs => startsWithChars pat (b :: bs) || occursInChars pat bs

def lowerContains (s pat : String) : Bool :=
  occursInChars pat.toList (s.toList.map Char.toLower)

/-- The column of the downloaded frame whose values become
`FechamentoAjustado` in `baixar_dados_indices` (data_loader.py lines 84-104):
the literal `'Adj Close'` when present, else the first column whose lowercase
name contains both `adj` and `close`; `none` when no such column exists. -/
def fechamentoAjustadoSource (cols : List String) : Option String :=
  if "Adj Close" ∈ cols then some "Adj Close"
  else cols.find? (fun c => lowerContains c "adj" && lowerContains c "close")

/-- The alternate-spelling rename loop (lines 85-89). -/
def renameAdj (cols : List String) : List String :=
  if "Adj Close" ∈ cols then cols
  else
    match cols.find? (fun c => lowerContains c "adj" && lowerContains c "close") with
    | some c0 => cols.map (fun c => if c = c0 then "Adj Close" else c)
    | none => cols

/-- The rename-to-SQL map (lines 96-104). -/
def sqlRename (c : String) : String :=
  if c = "Date" then "DataQuotacao"
  else if c = "Open" then "Abertura"
  else if c = "High" then "Alta"
  else if c = "Low" then "Baixa"
  else if c = "Close" then "Fechamento"
  else if c = "Adj Close" then "FechamentoAjustado"
  else c

def colunasMantidas : List String :=
  ["Ticker", "Descricao", "Pais", "DataQuotacao", "Abertura", "Alta", "Baixa",
   "Fechamento", "FechamentoAjustado", "Volume"]

/-- The per-ticker column pipeline of `baixar_dados_indices`: adjusted-close
rename, the three constant columns, the SQL rename, then
`df[colunas_mantidas]`, which raises KeyError — ticker skipped, `none` — when a
kept column is missing. -/
def baixar_normalize (cols : List String) : Option (List String) :=
  let cols2 := (renameAdj cols ++ ["Ticker", "Descricao", "Pais"]).map sqlRename
  if ∀ c ∈ colunasMantidas, c ∈ cols2 then some colunasMantidas else none

/-- A pre-existing bar used by concrete instances below. -/
def barPre : Bar := ⟨1, 5, none, none, none, none, none, some 0⟩

/-- A fully well-formed provider bar on date 5, whose plain close (10) differs
from its provider adjusted close (9). -/
def rowGood5 : RawRow := ⟨some 5, .num 1, .num 2, .num 1, .num 10, .num 9, .num 100⟩

/-- A well-formed provider bar on date 6. -/
def rowGood6 : RawRow := ⟨some 6, .num 1, .num 2, .num 1, .num 11, .num 9, .num 50⟩

/-- A bar on date 7 whose volume cell `int()` cannot parse. -/
def rowBadVol7 : RawRow := ⟨some 7, .num 1, .num 2, .num 1, .num 12, .num 9, .bad⟩

/-- `x < b` at a smaller finite bound implies it at a larger one (used for
`v < 2` entailing `v < 5`). -/
theorem PFloat.lt_trans_const {x : PFloat} {a b : ℚ} (hab : a ≤ b)
    (h : PFloat.lt x (.finite a) = true) : PFloat.lt x (.finite b) = true := by
  cases x <;> simp [PFloat.lt] at h ⊢
  linarith

/-- A float strictly above 2 is never strictly below -1. -/
theorem PFloat.not_lt_neg_of_gt_two {x : PFloat}
    (h : PFloat.lt (.finite 2) x = true) : PFloat.lt x (.finite (-1)) = false := by
  cases x <;> simp [PFloat.lt] at h ⊢
  linarith

/-- Closed form of the single record produced for non-`None` metrics. -/
theorem gerar_oportunidades_eq (r v : PFloat) :
    gerar_oportunidades (some (r, v)) =
      [{ tipo := if PFloat.lt (.finite 2) r then .COMPRA
           else if PFloat.lt r (.finite (-1)) then .VENDA else .HOLD
         potencial_retorno :=
           if PFloat.lt (.finite 2) r then r.mulConst (3 / 2)
           else if PFloat.lt r (.finite (-1)) then r.absF.mulConst (4 / 5) else r
         nivel_risco := if PFloat.lt v (.finite 2) then .BAIXO
           else if PFloat.lt v (.finite 5) then Risco.MEDIO else .ALTO
         confianca := if PFloat.lt v (.finite 2) then 17 / 20
           else if PFloat.lt v (.finite 5) then 7 / 10 else 11 / 20 }] := by
  unfold gerar_oportunidades
  dsimp only
  split_ifs <;> rfl

/-- Full characterization of the record produced for present metrics, under
the IEEE comparisons of the code (`PFloat.lt` is false on NaN either side). -/
theorem gerar_spec (r v : PFloat) :
    ∃ o : Oportunidade, gerar_oportunidades (some (r, v)) = [o]
      ∧ (o.tipo = .COMPRA ↔ PFloat.lt (.finite 2) r = true)
      ∧ (PFloat.lt (.finite 2) r = true → o.potencial_retorno = r.mulConst (3 / 2))
      ∧ (o.tipo = .VENDA ↔ PFloat.lt r (.finite (-1)) = true)
      ∧ (PFloat.lt r (.finite (-1)) = true →
          o.potencial_retorno = r.absF.mulConst (4 / 5))
      ∧ (o.tipo = .HOLD ↔
          (PFloat.lt (.finite 2) r = false ∧ PFloat.lt r (.finite (-1)) = false))
      ∧ (o.tipo = .HOLD → o.potencial_retorno = r)
      ∧ (o.nivel_risco = .BAIXO ↔ PFloat.lt v (.finite 2) = true)
      ∧ (o.nivel_risco = .BAIXO → o.confianca = 17 / 20)
      ∧ (o.nivel_risco = Risco.MEDIO ↔
          (PFloat.lt v (.finite 2) = false ∧ PFloat.lt v (.finite 5) = true))
      ∧ (o.nivel_risco = Risco.MEDIO → o.confianca = 7 / 10)
      ∧ (o.nivel_risco = .ALTO ↔ PFloat.lt v (.finite 5) = false)
      ∧ (o.nivel_risco = .ALTO → o.confianca = 11 / 20) := by
  have hx := @PFloat.not_lt_neg_of_gt_two r
  have hv5 : PFloat.lt v (.finite 2) = true → PFloat.lt v (.finite 5) = true :=
    fun h => PFloat.lt_trans_const (by norm_num) h
  refine ⟨_, gerar_oportunidades_eq r v,
    ?_, ?_, ?_, ?_, ?_, ?_, ?_, ?_, ?_, ?_, ?_, ?_⟩ <;>
    cases h1 : PFloat.lt (PFloat.finite 2) r <;>
    cases h2 : PFloat.lt r (PFloat.finite (-1)) <;>
    cases h3 : PFloat.lt v (PFloat.finite 2) <;>
    cases h4 : PFloat.lt v (PFloat.finite 5) <;>
    first
      | (exact absurd h2 (ne_true_of_eq_false (hx h1)))
      | (exact absurd (hv5 h3) (ne_true_of_eq_false h4))
      | simp [h1, h2, h3, h4]

/-- A row that fails field conversion and whose key is absent is skipped
entirely. -/
theorem processRow_skip (idI : ℕ) (acc : SalvarAcc) (b : RawRow)
    (hb : parseRowFields b = none)
    (hk : ∀ d, b.Date = some d → hasKey acc.st idI d = false) :
    processRow idI acc b = acc := by
  unfold processRow
  cases hd : b.Date with
  | none => rfl
  | some d => simp [hk d hd, hb]

/-- `processRow` only ever appends to the store. -/
theorem processRow_st_extend (idI : ℕ) (acc : SalvarAcc) (r : RawRow) :
    ∃ ext, (processRow idI acc r).st = acc.st ++ ext := by
  unfold processRow
  cases hd : r.Date with
  | none => exact ⟨[], by simp⟩
  | some d =>
    by_cases hk : hasKey acc.st idI d = true
    · exact ⟨[], by simp [hk]⟩
    · cases hp : parseRowFields r with
      | none => exact ⟨[], by simp [hk, hp]⟩
      | some p => exact ⟨[mkBar idI d p], by simp [hk, hp]⟩

/-- The row loop only ever appends to the store. -/
theorem foldl_st_extend (idI : ℕ) (df : List RawRow) :
    ∀ acc : SalvarAcc, ∃ ext, (df.foldl (processRow idI) acc).st = acc.st ++ ext := by
  induction df with
  | nil => exact fun acc => ⟨[], by simp⟩
  | cons r rest ih =>
    intro acc
    obtain ⟨e1, h1⟩ := processRow_st_extend idI acc r
    obtain ⟨e2, h2⟩ := ih (processRow idI acc r)
    exact ⟨e1 ++ e2, by rw [List.foldl_cons, h2, h1, List.append_assoc]⟩

theorem hasKey_append (st ext : Store) (idI d : ℕ) :
    hasKey (st ++ ext) idI d = (hasKey st idI d || hasKey ext idI d) := by
  simp [hasKey, List.any_append]

theorem hasKey_mono (st ext : Store) (idI d : ℕ) (h : hasKey st idI d = true) :
    hasKey (st ++ ext) idI d = true := by
  simp [hasKey_append, h]

theorem hasKey_mkBar (idI d : ℕ) (p : ParsedFields) :
    hasKey [mkBar idI d p] idI d = true := by
  simp [hasKey, mkBar]

/-- After the batch, every row whose date parses and whose field conversions
succeed has its key present in the store (it was either inserted or was
already a duplicate). -/
theorem key_in_final (idI : ℕ) (df : List RawRow) :
    ∀ (acc : SalvarAcc) (r : RawRow) (d : ℕ), r ∈ df → r.Date = some d →
      (parseRowFields r).isSome = true →
      hasKey ((df.foldl (processRow idI) acc).st) idI d = true := by
  induction df with
  | nil => intro _ r _ h; cases h
  | cons r0 rest ih =>
    intro acc r d hmem hd hp
    rcases List.mem_cons.mp hmem with rfl | hmem'
    · obtain ⟨ext, hext⟩ := foldl_st_extend idI rest (processRow idI acc r)
      rw [List.foldl_cons, hext]
      apply hasKey_mono
      unfold processRow
      rw [hd]
      by_cases hk : hasKey acc.st idI d = true
      · simp [hk]
      · obtain ⟨p, hp'⟩ := Option.isSome_iff_exists.mp hp
        simp only [hk, if_false, hp', Bool.false_eq_true]
        rw [hasKey_append]
        simp [hasKey_mkBar]
    · exact ih (processRow idI acc r0) r d hmem' hd hp

/-- A batch in which every row's key is already stored only counts duplicates
and leaves everything else unchanged. -/
theorem foldl_all_dup (idI : ℕ) (df : List RawRow) :
    ∀ acc : SalvarAcc, (∀ r ∈ df, ∃ d, r.Date = some d ∧ hasKey acc.st idI d = true) →
      df.foldl (processRow idI) acc = ⟨acc.st, acc.inseridos, acc.duplicados + df.length⟩ := by
  induction df with
  | nil => intro acc _; simp
  | cons r rest ih =>
    intro acc h
    obtain ⟨d, hd, hk⟩ := h r (List.mem_cons_self r rest)
    have hstep : processRow idI acc r = ⟨acc.st, acc.inseridos, acc.duplicados + 1⟩ := by
      unfold processRow
      rw [hd]
      simp [hk]
    rw [List.foldl_cons, hstep]
    rw [ih ⟨acc.st, acc.inseridos, acc.duplicados + 1⟩
      (fun r' hr' => h r' (List.mem_cons_of_mem _ hr'))]
    simp
    omega

/-- If each row of the list leaves a given store and the insert counter fixed,
so does the whole fold. -/
theorem foldl_fixed (idI : ℕ) (l : List RawRow) (s0 : Store)
    (h : ∀ r ∈ l, ∀ i dp : ℕ, (processRow idI ⟨s0, i, dp⟩ r).st = s0 ∧
          (processRow idI ⟨s0, i, dp⟩ r).inseridos = i) :
    ∀ i dp : ℕ, (l.foldl (processRow idI) ⟨s0, i, dp⟩).st = s0 ∧
      (l.foldl (processRow idI) ⟨s0, i, dp⟩).inseridos = i := by
  induction l with
  | nil => exact fun i dp => ⟨rfl, rfl⟩
  | cons r rest ih =>
    intro i dp
    obtain ⟨h1, h2⟩ := h r (List.mem_cons_self r rest) i dp
    rcases ha : processRow idI ⟨s0, i, dp⟩ r with ⟨s', i', d'⟩
    rw [ha] at h1 h2
    simp only at h1 h2
    rw [List.foldl_cons, ha, h1, h2]
    exact ih (fun r' hr' => h r' (List.mem_cons_of_mem _ hr')) i d'

/-- A well-formed row is counted exactly once: as an insert or as a duplicate. -/
theorem processRow_counts (idI : ℕ) (acc : SalvarAcc) (r : RawRow)
    (hd : r.Date.isSome = true) (hp : (parseRowFields r).isSome = true) :
    (processRow idI acc r).inseridos + (processRow idI acc r).duplicados
      = acc.inseridos + acc.duplicados + 1 := by
  obtain ⟨d, hd'⟩ := Option.isSome_iff_exists.mp hd
  obtain ⟨p, hp'⟩ := Option.isSome_iff_exists.mp hp
  unfold processRow
  rw [hd']
  by_cases hk : hasKey acc.st idI d = true
  · simp [hk]
    omega
  · simp [hk, hp']
    omega

/-- On a batch of well-formed rows, `inseridos + duplicados` equals the batch
length. -/
theorem foldl_wf_counts (idI : ℕ) (df : List RawRow) :
    ∀ acc : SalvarAcc,
      (∀ r ∈ df, r.Date.isSome = true ∧ (parseRowFields r).isSome = true) →
      (df.foldl (processRow idI) acc).inseridos + (df.foldl (processRow idI) acc).duplicados
        = acc.inseridos + acc.duplicados + df.length := by
  induction df with
  | nil => intro acc _; simp
  | cons r rest ih =>
    intro acc h
    rw [List.foldl_cons]
    obtain ⟨hd, hp⟩ := h r (List.mem_cons_self r rest)
    have h1 := processRow_counts idI acc r hd hp
    have h2 := ih (processRow idI acc r) (fun r' hr' => h r' (List.mem_cons_of_mem _ hr'))
    simp only [List.length_cons]
    omega

/-- A fresh batch — no row's key stored yet, pairwise-distinct dates — counts
no duplicates. -/
theorem foldl_fresh_no_dup (idI : ℕ) (df : List RawRow) :
    ∀ acc : SalvarAcc,
      (∀ r ∈ df, ∀ d, r.Date = some d → hasKey acc.st idI d = false) →
      (df.filterMap RawRow.Date).Nodup →
      (df.foldl (processRow idI) acc).duplicados = acc.duplicados := by
  induction df with
  | nil => intro acc _ _; rfl
  | cons r rest ih =>
    intro acc hk hnd
    rw [List.foldl_cons]
    cases hd : r.Date with
    | none =>
      have hstep : processRow idI acc r = acc := by
        unfold processRow
        rw [hd]
      rw [hstep]
      refine ih acc (fun r' hr' d hd' => hk r' (List.mem_cons_of_mem _ hr') d hd') ?_
      simpa [List.filterMap_cons, hd] using hnd
    | some d =>
      have hkd := hk r (List.mem_cons_self r rest) d hd
      rw [List.filterMap_cons, hd] at hnd
      cases hp : parseRowFields r with
      | none =>
        have hstep : processRow idI acc r = acc := by
          unfold processRow
          rw [hd]
          simp [hkd, hp]
        rw [hstep]
        exact ih acc (fun r' hr' d' hd' => hk r' (List.mem_cons_of_mem _ hr') d' hd')
          (List.Nodup.of_cons hnd)
      | some p =>
        have hstep : processRow idI acc r =
            ⟨acc.st ++ [mkBar idI d p], acc.inseridos + 1, acc.duplicados⟩ := by
          unfold processRow
          rw [hd]
          simp [hkd, hp]
        rw [hstep]
        refine ih _ ?_ (List.Nodup.of_cons hnd)
        intro r' hr' d' hd'
        have h1 := hk r' (List.mem_cons_of_mem _ hr') d' hd'
        have hd'mem : d' ∈ rest.filterMap RawRow.Date :=
          List.mem_filterMap.mpr ⟨r', hr', hd'⟩
        have hne : (d == d') = false := by
          have : d' ≠ d := fun h => (List.nodup_cons.mp hnd).1 (h ▸ hd'mem)
          simpa [beq_iff_eq] using fun h => this h.symm
        rw [hasKey_append, h1]
        simp [hasKey, mkBar, hne]

theorem keysOf_append (st ext : Store) : keysOf (st ++ ext) = keysOf st ++ keysOf ext := by
  simp [keysOf]

theorem hasKey_false_not_mem (st : Store) (idI d : ℕ)
    (h : hasKey st idI d = false) : (idI, d) ∉ keysOf st := by
  intro hmem
  obtain ⟨b, hb, hb2⟩ := List.mem_map.mp hmem
  have hbi : b.IdIndice = idI := congrArg Prod.fst hb2
  have hbd : b.DataQuotacao = d := congrArg Prod.snd hb2
  have : hasKey st idI d = true := by
    unfold hasKey
    rw [List.any_eq_true]
    exact ⟨b, hb, by simp [hbi, hbd]⟩
  rw [h] at this
  cases this

/-- Each loop iteration preserves uniqueness of `(IdIndice, DataQuotacao)`. -/
theorem processRow_keys_nodup (idI : ℕ) (acc : SalvarAcc) (r : RawRow)
    (h : (keysOf acc.st).Nodup) : (keysOf (processRow idI acc r).st).Nodup := by
  unfold processRow
  cases hd : r.Date with
  | none => exact h
  | some d =>
    by_cases hk : hasKey acc.st idI d = true
    · simpa [hk] using h
    · cases hp : parseRowFields r with
      | none => simpa [hk, hp] using h
      | some p =>
        have hk' : hasKey acc.st idI d = false := by
          revert hk
          cases hasKey acc.st idI d <;> simp
        simp only [hk, if_false, hp, Bool.false_eq_true]
        rw [keysOf_append]
        refine List.nodup_append.mpr ⟨h, List.nodup_singleton _, ?_⟩
        intro x hx hx'
        have : x = (idI, d) := by simpa [keysOf, mkBar] using hx'
        exact hasKey_false_not_mem acc.st idI d hk' (this ▸ hx)

theorem foldl_keys_nodup (idI : ℕ) (df : List RawRow) :
    ∀ acc : SalvarAcc, (keysOf acc.st).Nodup →
      (keysOf ((df.foldl (processRow idI) acc).st)).Nodup := by
  induction df with
  | nil => exact fun acc h => h
  | cons r rest ih =>
    intro acc h
    rw [List.foldl_cons]
    exact ih _ (processRow_keys_nodup idI acc r h)

/-- Every bar in the store after a batch was already stored or is a freshly
built insert row. -/
theorem mem_foldl_st (idI : ℕ) (df : List RawRow) :
    ∀ (acc : SalvarAcc) (b : Bar), b ∈ (df.foldl (processRow idI) acc).st →
      b ∈ acc.st ∨ ∃ d p, b = mkBar idI d p := by
  induction df with
  | nil => exact fun acc b hb => Or.inl hb
  | cons r rest ih =>
    intro acc b hb
    rcases ih (processRow idI acc r) b hb with h | h
    · unfold processRow at h
      cases hd : r.Date with
      | none =>
        rw [hd] at h
        exact Or.inl h
      | some d =>
        rw [hd] at h
        by_cases hk : hasKey acc.st idI d = true
        · simp only [hk, if_true] at h
          exact Or.inl h
        · cases hp : parseRowFields r with
          | none =>
            simp only [hk, if_false, hp, Bool.false_eq_true] at h
            exact Or.inl h
          | some p =>
            simp only [hk, if_false, hp, Bool.false_eq_true] at h
            rcases List.mem_append.mp h with h' | h'
            · exact Or.inl h'
            · exact Or.inr ⟨d, p, by simpa using h'⟩
    · exact Or.inr h

/-- C2 fails on the code's actual float metrics: a NaN volatility is reachable
(a segment whose returns have exactly one defined slot — here one instrument
with two bars — has `std = NaN`, i.e. `VolatilidadeVar = NaN`), and the
signal generator classifies it `ALTO` with confidence `0.55` even though
`mean_volatility ≥ 5` is false under float comparison — refuting the claimed
"HIGH/0.55 iff mean_volatility ≥ 5" biconditional. -/
theorem c2_counterexample :
    (calcular_metricas_segmento
        [⟨"T", 1, some 100, some 0⟩, ⟨"T", 2, some 110, some 0⟩]).map
        Metricas.VolatilidadeVar = some PFloat.nan
    ∧ (gerar_oportunidades (some (.finite 10, .nan))).map Oportunidade.nivel_risco
      = [Risco.ALTO]
    ∧ (gerar_oportunidades (some (.finite 10, .nan))).map Oportunidade.confianca
      = [11 / 20]
    ∧ PFloat.le (.finite 5) .nan = false := by
  exact ⟨by decide, rfl, rfl, rfl⟩

/-- C2 amended: the signal generator is total and deterministic over the float
metrics the engine actually produces (NaN and infinities included); `None`
metrics give an empty result; otherwise exactly one record, with the code's
IEEE comparisons: BUY iff `2 < mean_return` (potential `×1.5`), SELL iff
`mean_return < -1` (potential `|mean_return|×0.8`), HOLD otherwise (potential
`mean_return`, so NaN metrics are HOLD); risk LOW/0.85 iff `vol < 2`,
MEDIUM/0.70 iff `¬(vol < 2) ∧ vol < 5`, HIGH/0.55 iff `¬(vol < 5)` — which on
numeric (non-NaN) metrics coincides with the original thresholds, boundaries
included, but on a NaN volatility yields HIGH although `vol ≥ 5` is false. -/
theorem c2_amended (r v : PFloat) :
    gerar_oportunidades none = []
    ∧ ∃ o : Oportunidade, gerar_oportunidades (some (r, v)) = [o]
      ∧ (o.tipo = .COMPRA ↔ PFloat.lt (.finite 2) r = true)
      ∧ (PFloat.lt (.finite 2) r = true → o.potencial_retorno = r.mulConst (3 / 2))
      ∧ (o.tipo = .VENDA ↔ PFloat.lt r (.finite (-1)) = true)
      ∧ (PFloat.lt r (.finite (-1)) = true →
          o.potencial_retorno = r.absF.mulConst (4 / 5))
      ∧ (o.tipo = .HOLD ↔
          (PFloat.lt (.finite 2) r = false ∧ PFloat.lt r (.finite (-1)) = false))
      ∧ (o.tipo = .HOLD → o.potencial_retorno = r)
      ∧ (o.nivel_risco = .BAIXO ↔ PFloat.lt v (.finite 2) = true)
      ∧ (o.nivel_risco = .BAIXO → o.confianca = 17 / 20)
      ∧ (o.nivel_risco = Risco.MEDIO ↔
          (PFloat.lt v (.finite 2) = false ∧ PFloat.lt v (.finite 5) = true))
      ∧ (o.nivel_risco = Risco.MEDIO → o.confianca = 7 / 10)
      ∧ (o.nivel_risco = .ALTO ↔ PFloat.lt v (.finite 5) = false)
      ∧ (o.nivel_risco = .ALTO → o.confianca = 11 / 20)
      ∧ (∀ q : ℚ, r = .finite q →
          ((o.tipo = .COMPRA ↔ q > 2) ∧ (o.tipo = .VENDA ↔ q < -1)))
      ∧ (∀ q : ℚ, v = .finite q →
          ((o.nivel_risco = .BAIXO ↔ q < 2)
            ∧ (o.nivel_risco = Risco.MEDIO ↔ (2 ≤ q ∧ q < 5))
            ∧ (o.nivel_risco = .ALTO ↔ 5 ≤ q))) := by
  obtain ⟨o, ho, h1, h2, h3, h4, h5, h6, h7, h8, h9, h10, h11, h12⟩ := gerar_spec r v
  refine ⟨rfl, o, ho, h1, h2, h3, h4, h5, h6, h7, h8, h9, h10, h11, h12, ?_, ?_⟩
  · rintro q rfl
    constructor
    · simpa [PFloat.lt] using h1
    · simpa [PFloat.lt] using h3
  · rintro q rfl
    refine ⟨?_, ?_, ?_⟩
    · simpa [PFloat.lt] using h7
    · rw [h9]
      simp [PFloat.lt, not_lt]
    · rw [h11]
      simp [PFloat.lt, not_lt]

/-- Witness for `c2_amended` at finite metrics `mean_return = 3`,
`mean_volatility = 1`. -/
theorem c2_witness :
    PFloat.lt (.finite 2) (.finite 3) = true
    ∧ ∃ o : Oportunidade, gerar_oportunidades (some (.finite 3, .finite 1)) = [o]
      ∧ o.tipo = .COMPRA
      ∧ o.potencial_retorno = PFloat.mulConst (.finite 3) (3 / 2)
      ∧ o.nivel_risco = .BAIXO := by
  refine ⟨by decide, ?_⟩
  obtain ⟨-, o, ho, h1, h2, h3, h4, h5, h6, h7, h8, h9, h10, h11, h12, hf1, hf2⟩ :=
    c2_amended (.finite 3) (.finite 1)
  exact ⟨o, ho, h1.mpr (by decide), h2 (by decide), h7.mpr (by decide)⟩

/-- C1 fails on the code: with a NULL prior close (coerced to `0` by
`float(row[3]) if row[3] else 0`) followed by close `100`, the per-day return
is `+inf` and `RetornoMedio` — far from excluding the undefined day — is
infinite. -/
theorem c1_counterexample :
    (calcular_metricas_segmento
        [⟨"T", 1, none, some 0⟩, ⟨"T", 2, some 100, some 0⟩]).map Metricas.RetornoMedio
      = some PFloat.inf := by
  decide

/-- C1 amended: a zero-or-null prior close never raises (the computation is
total and returns a metrics record), but the day's return is `+inf` whenever
the next close is positive, and that infinity propagates into `mean_return`
(which becomes infinite) instead of being excluded; the volatility becomes
NaN. -/
theorem c1_amended (c : ℚ) (hc : 0 < c) :
    ∃ m, calcular_metricas_segmento
        [⟨"T", 1, none, some 0⟩, ⟨"T", 2, some c, some 0⟩] = some m
      ∧ m.Retornos = [PFloat.nan, PFloat.inf]
      ∧ m.RetornoMedio = PFloat.inf
      ∧ m.VolatilidadeVar = PFloat.nan := by
  refine ⟨_, rfl, ?_, ?_, ?_⟩ <;>
    simp [calcular_metricas_segmento, pctChangeGroup, pctRatio, coerceFech,
      pmean, pvarOf, definedVals, finitesOf, PFloat.isNan, PFloat.isInf,
      PFloat.isNegInf, hc, hc.ne']

/-- Witness for `c1_amended` at `c = 100`. -/
theorem c1_witness :
    (0 : ℚ) < 100 ∧ ∃ m, calcular_metricas_segmento
        [⟨"T", 1, none, some 0⟩, ⟨"T", 2, some 100, some 0⟩] = some m
      ∧ m.RetornoMedio = PFloat.inf :=
  ⟨by norm_num, by
    obtain ⟨m, hm, -, h2, -⟩ := c1_amended 100 (by norm_num)
    exact ⟨m, hm, h2⟩⟩

/-- C3 fails on the code as universally stated: when the initial store already
holds the bar's key, the first run inserts 0, yet the second run's duplicate
count is 1, not 0. -/
theorem c3_counterexample :
    (salvar_historico_precos 1 [rowGood5] [barPre]).inseridos = 0
    ∧ (salvar_historico_precos 1 [rowGood5]
        (salvar_historico_precos 1 [rowGood5] [barPre]).st).duplicados = 1
    ∧ ¬ ((salvar_historico_precos 1 [rowGood5]
            (salvar_historico_precos 1 [rowGood5] [barPre]).st).duplicados
          = (salvar_historico_precos 1 [rowGood5] [barPre]).inseridos) := by
  decide

/-- C3 amended: a second identical run always inserts nothing and leaves the
store unchanged; on a batch of well-formed rows its duplicate count equals the
first run's `inseridos + duplicados`, and in the fresh-ingestion case (no input
key already stored, pairwise-distinct dates) exactly the first run's
`inseridos`. -/
theorem c3_amended (idI : ℕ) (df : List RawRow) (st : Store) :
    (salvar_historico_precos idI df (salvar_historico_precos idI df st).st).st
        = (salvar_historico_precos idI df st).st
    ∧ (salvar_historico_precos idI df (salvar_historico_precos idI df st).st).inseridos = 0
    ∧ ((∀ r ∈ df, r.Date.isSome = true ∧ (parseRowFields r).isSome = true) →
        (salvar_historico_precos idI df (salvar_historico_precos idI df st).st).duplicados
          = (salvar_historico_precos idI df st).inseridos
            + (salvar_historico_precos idI df st).duplicados
        ∧ ((∀ r ∈ df, ∀ d, r.Date = some d → hasKey st idI d = false) →
            (df.filterMap RawRow.Date).Nodup →
            (salvar_historico_precos idI df (salvar_historico_precos idI df st).st).duplicados
              = (salvar_historico_precos idI df st).inseridos)) := by
  have hfix : ∀ r ∈ df, ∀ i dp : ℕ,
      (processRow idI ⟨(salvar_historico_precos idI df st).st, i, dp⟩ r).st
        = (salvar_historico_precos idI df st).st ∧
      (processRow idI ⟨(salvar_historico_precos idI df st).st, i, dp⟩ r).inseridos = i := by
    intro r hr i dp
    unfold processRow
    cases hd : r.Date with
    | none => exact ⟨rfl, rfl⟩
    | some d =>
      by_cases hk : hasKey (salvar_historico_precos idI df st).st idI d = true
      · simp [hk]
      · cases hp : parseRowFields r with
        | none => simp [hk, hp]
        | some p =>
          exact absurd (key_in_final idI df ⟨st, 0, 0⟩ r d hr hd (by simp [hp])) hk
  obtain ⟨hst2, hins2⟩ := foldl_fixed idI df (salvar_historico_precos idI df st).st hfix 0 0
  refine ⟨hst2, hins2, ?_⟩
  intro hwf
  have hall : ∀ r ∈ df, ∃ d, r.Date = some d ∧
      hasKey (salvar_historico_precos idI df st).st idI d = true := by
    intro r hr
    obtain ⟨d, hd⟩ := Option.isSome_iff_exists.mp (hwf r hr).1
    exact ⟨d, hd, key_in_final idI df ⟨st, 0, 0⟩ r d hr hd (hwf r hr).2⟩
  have h2 := foldl_all_dup idI df ⟨(salvar_historico_precos idI df st).st, 0, 0⟩ hall
  have hdup2 : (salvar_historico_precos idI df
      (salvar_historico_precos idI df st).st).duplicados = df.length := by
    show (List.foldl (processRow idI)
      ⟨(salvar_historico_precos idI df st).st, 0, 0⟩ df).duplicados = df.length
    rw [h2]
    simp
  have hcount := foldl_wf_counts idI df ⟨st, 0, 0⟩ hwf
  have hcount' : (salvar_historico_precos idI df st).inseridos
      + (salvar_historico_precos idI df st).duplicados = df.length := by
    show (List.foldl (processRow idI) ⟨st, 0, 0⟩ df).inseridos
        + (List.foldl (processRow idI) ⟨st, 0, 0⟩ df).duplicados = df.length
    rw [hcount]
    simp
  constructor
  · omega
  · intro hfresh hnd
    have h3 := foldl_fresh_no_dup idI df ⟨st, 0, 0⟩ hfresh hnd
    have h3' : (salvar_historico_precos idI df st).duplicados = 0 := by
      show (List.foldl (processRow idI) ⟨st, 0, 0⟩ df).duplicados = 0
      rw [h3]
    omega

/-- Witness for `c3_amended`: two well-formed fresh rows, re-ingested. -/
theorem c3_witness :
    (∀ r ∈ [rowGood5, rowGood6], r.Date.isSome = true ∧ (parseRowFields r).isSome = true)
    ∧ (salvar_historico_precos 1 [rowGood5, rowGood6]
        (salvar_historico_precos 1 [rowGood5, rowGood6] []).st).duplicados
      = (salvar_historico_precos 1 [rowGood5, rowGood6] []).inseridos := by
  refine ⟨by decide, ?_⟩
  exact ((c3_amended 1 [rowGood5, rowGood6] []).2.2 (by decide)).2
    (by intro r hr d hd; simp [hasKey]) (by decide)

/-- C4: starting from a store whose `(IdIndice, DataQuotacao)` keys are
pairwise distinct, any sequence of ingestion batches preserves that
uniqueness — a re-observed date is skipped, never inserted twice. -/
theorem c4_uniqueness (st : Store) (calls : List (ℕ × List RawRow))
    (h : (keysOf st).Nodup) : (keysOf (applyBatches calls st)).Nodup := by
  induction calls generalizing st with
  | nil => exact h
  | cons c rest ih =>
    unfold applyBatches
    rw [List.foldl_cons]
    exact ih _ (foldl_keys_nodup c.1 c.2 ⟨st, 0, 0⟩ h)

/-- Witness for `c4_uniqueness`: a concrete store and two batches, one of which
re-ingests an already-stored date. -/
theorem c4_witness :
    (keysOf [barPre]).Nodup
    ∧ (keysOf (applyBatches [(1, [rowGood5, rowGood6]), (1, [rowGood5])] [barPre])).Nodup :=
  ⟨by decide, c4_uniqueness [barPre] [(1, [rowGood5, rowGood6]), (1, [rowGood5])] (by decide)⟩

/-- C5 fails on the code: a batch with a malformed row produces exactly the
same store and the same summary counts (`inseridos = 1`, `duplicados = 0`) as
the batch without it — the terminal summary carries no failed count and cannot
distinguish the two runs. -/
theorem c5_counterexample :
    salvar_historico_precos 1 [rowGood5, rowBadVol7] []
      = salvar_historico_precos 1 [rowGood5] []
    ∧ (salvar_historico_precos 1 [rowGood5, rowBadVol7] []).inseridos = 1
    ∧ (salvar_historico_precos 1 [rowGood5, rowBadVol7] []).duplicados = 0 := by
  decide

/-- C5 amended: a malformed row (one whose field conversion raises) whose key
is not already stored is skipped without aborting the batch and without being
counted — the result, store and both summary counts included, is identical to
running the batch without that row; failures are visible only in per-row error
logs, not in the summary counts. -/
theorem c5_amended (idI : ℕ) (st : Store) (pre post : List RawRow) (b : RawRow)
    (hb : parseRowFields b = none)
    (hk : ∀ d, b.Date = some d →
        hasKey (salvar_historico_precos idI pre st).st idI d = false) :
    salvar_historico_precos idI (pre ++ b :: post) st
      = salvar_historico_precos idI (pre ++ post) st := by
  unfold salvar_historico_precos
  rw [List.foldl_append, List.foldl_cons,
    processRow_skip idI (List.foldl (processRow idI) ⟨st, 0, 0⟩ pre) b hb hk,
    ← List.foldl_append]

/-- Witness for `c5_amended`: the malformed-volume row vanishes from the run. -/
theorem c5_witness :
    parseRowFields rowBadVol7 = none
    ∧ salvar_historico_precos 1 ([rowGood5] ++ rowBadVol7 :: [rowGood6]) []
      = salvar_historico_precos 1 ([rowGood5] ++ [rowGood6]) [] := by
  refine ⟨by decide, ?_⟩
  exact c5_amended 1 [] [rowGood5] [rowGood6] rowBadVol7 (by decide)
    (by intro d hd; injection hd with h; subst h; decide)

/-- C6 fails on the code: with store connectivity down, the save step raises
(`salvar_historico_precos` propagates `.error`), yet the full-collection entry
point `coletar_indice_completo` returns normally — the error is swallowed by
its `except Exception: logger.error(...)` with no re-raise. -/
theorem c6_counterexample :
    salvarE false 1 [rowGood5] [] = .error "store connectivity"
    ∧ coletar_indice_completo false 1 [rowGood5] [] = .ok [] := ⟨rfl, rfl⟩

/-- C6 amended: `salvar_historico_precos` does propagate a store failure to its
caller, but `coletar_indice_completo` catches and logs every exception without
re-raising, so the entry point always returns normally — with the pre-batch
store on failure, and with the saved store on success. -/
theorem c6_amended (idI : ℕ) (df : List RawRow) (st : Store) :
    salvarE false idI df st = .error "store connectivity"
    ∧ coletar_indice_completo false idI df st = .ok st
    ∧ (df.isEmpty = false →
        coletar_indice_completo true idI df st
          = .ok (salvar_historico_precos idI df st).st) := by
  refine ⟨rfl, ?_, ?_⟩
  · unfold coletar_indice_completo salvarE
    cases df <;> simp
  · intro h
    unfold coletar_indice_completo salvarE
    simp [h]

/-- Witness for `c6_amended` on a nonempty batch. -/
theorem c6_witness :
    ([rowGood5] : List RawRow).isEmpty = false
    ∧ coletar_indice_completo true 1 [rowGood5] []
      = .ok (salvar_historico_precos 1 [rowGood5] []).st :=
  ⟨rfl, (c6_amended 1 [rowGood5] []).2.2 rfl⟩

/-- C7 fails on the code: the collector stores the plain close as
`FechamentoAjustado` even when the provider bar carries a distinct adjusted
close (here close `10`, adjusted close `9`: the stored value is `10`). -/
theorem c7_counterexample :
    ((salvar_historico_precos 1 [rowGood5] []).st.map Bar.FechamentoAjustado)
      = [some 10]
    ∧ rowGood5.AdjClose = .num 9
    ∧ ((10 : ℚ) ≠ 9) := by
  decide

/-- C7 amended: the collector path always copies the plain close into
`adjusted_close` (every inserted bar has `FechamentoAjustado = Fechamento`),
ignoring any provider adjusted close; the loader path takes `'Adj Close'` or
any spelling containing `adj` and `close`, and when no such column exists the
ticker's frame fails column selection and is skipped — there is no fallback to
the plain close. -/
theorem c7_amended :
    (∀ (idI : ℕ) (df : List RawRow) (st : Store) (b : Bar),
        b ∈ (salvar_historico_precos idI df st).st →
        b ∈ st ∨ b.FechamentoAjustado = b.Fechamento)
    ∧ (∀ cols : List String, "FechamentoAjustado" ∉ cols →
        fechamentoAjustadoSource cols = none → baixar_normalize cols = none)
    ∧ fechamentoAjustadoSource ["Date", "Open", "High", "Low", "Close", "Adj Close", "Volume"]
        = some "Adj Close"
    ∧ fechamentoAjustadoSource ["Date", "Open", "High", "Low", "Close", "adjclose", "Volume"]
        = some "adjclose"
    ∧ fechamentoAjustadoSource ["Date", "Open", "High", "Low", "Close", "Volume"] = none := by
  refine ⟨?_, ?_, by decide, by decide, by decide⟩
  · intro idI df st b hb
    rcases mem_foldl_st idI df ⟨st, 0, 0⟩ b hb with h | ⟨d, p, rfl⟩
    · exact Or.inl h
    · exact Or.inr rfl
  · intro cols hnot hsrc
    unfold fechamentoAjustadoSource at hsrc
    by_cases hcc : "Adj Close" ∈ cols
    · rw [if_pos hcc] at hsrc
      cases hsrc
    · rw [if_neg hcc] at hsrc
      have hren : renameAdj cols = cols := by
        unfold renameAdj
        rw [if_neg hcc, hsrc]
      unfold baixar_normalize
      rw [hren]
      have hmem : "FechamentoAjustado" ∉ ((cols ++ ["Ticker", "Descricao", "Pais"]).map sqlRename) := by
        intro hm
        obtain ⟨c, hc, hcr⟩ := List.mem_map.mp hm
        unfold sqlRename at hcr
        split_ifs at hcr with h1 h2 h3 h4 h5 h6
        · exact absurd hcr (by decide)
        · exact absurd hcr (by decide)
        · exact absurd hcr (by decide)
        · exact absurd hcr (by decide)
        · exact absurd hcr (by decide)
        · rcases List.mem_append.mp hc with h' | h'
          · exact hcc (h6 ▸ h')
          · exact absurd (h6 ▸ h') (by decide)
        · rcases List.mem_append.mp hc with h' | h'
          · exact hnot (hcr ▸ h')
          · exact absurd (hcr ▸ h') (by decide)
      rw [if_neg]
      intro hall
      exact hmem (hall "FechamentoAjustado" (by decide))

/-- Witness for `c7_amended`: the bar inserted for `rowGood5` has its adjusted
close equal to its plain close. -/
theorem c7_witness :
    (⟨1, 5, some 1, some 2, some 1, some 10, some 10, some 100⟩ : Bar)
        ∈ (salvar_historico_precos 1 [rowGood5] []).st
    ∧ ((⟨1, 5, some 1, some 2, some 1, some 10, some 10, some 100⟩ : Bar) ∈ ([] : Store)
        ∨ (⟨1, 5, some 1, some 2, some 1, some 10, some 10, some 100⟩ : Bar).FechamentoAjustado
          = (⟨1, 5, some 1, some 2, some 1, some 10, some 10, some 100⟩ : Bar).Fechamento) := by
  refine ⟨by decide, ?_⟩
  exact c7_amended.1 1 [rowGood5] []
    ⟨1, 5, some 1, some 2, some 1, some 10, some 10, some 100⟩ (by decide)

/-- C8: the per-day return is `(close[t] - close[t-1]) / close[t-1] * 100`
whenever the prior close is nonzero, a ticker's first observation is NaN
(absent from skipna aggregates, not zero), the aggregates depend only on the
defined (non-NaN) returns, and closes `[100, 110, 99]` give returns
`[NaN, 10, -10]` with mean `0` and sample variance `200` (std `√200`), computed
over the two defined slots only. -/
theorem c8_returns :
    (∀ prev cur : ℚ, prev ≠ 0 → pctRatio prev cur = .finite ((cur - prev) / prev * 100))
    ∧ (∀ (t : String) (c : ℚ) (rest seen : List (String × ℚ)),
        seen.find? (fun p => p.1 == t) = none →
        pctChangeGroup ((t, c) :: rest) seen
          = PFloat.nan :: pctChangeGroup rest ((t, c) :: seen))
    ∧ (∀ xs : List PFloat, pmean (definedVals xs) = pmean xs
        ∧ pvarOf (definedVals xs) = pvarOf xs)
    ∧ ((calcular_metricas_segmento
          [⟨"T", 1, some 100, some 0⟩, ⟨"T", 2, some 110, some 0⟩,
            ⟨"T", 3, some 99, some 0⟩]).map Metricas.Retornos
          = some [.nan, .finite 10, .finite (-10)]
        ∧ (calcular_metricas_segmento
          [⟨"T", 1, some 100, some 0⟩, ⟨"T", 2, some 110, some 0⟩,
            ⟨"T", 3, some 99, some 0⟩]).map Metricas.RetornoMedio
          = some (.finite 0)
        ∧ (calcular_metricas_segmento
          [⟨"T", 1, some 100, some 0⟩, ⟨"T", 2, some 110, some 0⟩,
            ⟨"T", 3, some 99, some 0⟩]).map Metricas.VolatilidadeVar
          = some (.finite 200)) := by
  refine ⟨?_, ?_, ?_, ?_⟩
  · intro prev cur h
    unfold pctRatio
    rw [if_neg h]
  · intro t c rest seen h
    rw [pctChangeGroup, h]
  · intro xs
    constructor <;>
      simp [pmean, pvarOf, definedVals, List.filter_filter]
  · refine ⟨?_, ?_, ?_⟩ <;>
      norm_num [calcular_metricas_segmento, pctChangeGroup, pctRatio, coerceFech, pmean,
        pvarOf, definedVals, finitesOf, PFloat.isNan, PFloat.isInf, PFloat.isNegInf,
        List.find?, List.filter, List.filterMap]

/-- Witness for `c8_returns` at prior close `100`, current close `110`, and at
a first observation over an empty seen-set. -/
theorem c8_witness :
    ((100 : ℚ) ≠ 0 ∧ pctRatio 100 110 = .finite ((110 - 100) / 100 * 100))
    ∧ (List.find? (fun p => p.1 == "T") ([] : List (String × ℚ)) = none
        ∧ pctChangeGroup [("T", (100 : ℚ))] [] = [PFloat.nan]) := by
  constructor
  · exact ⟨by norm_num, c8_returns.1 100 110 (by norm_num)⟩
  · refine ⟨rfl, ?_⟩
    have h := c8_returns.2.1 "T" 100 [] [] rfl
    rw [h, pctChangeGroup]

/-- C9: `adicionar_indice` is first-write-wins — if the symbol is found, it
returns the stored id and leaves the whole table (display name, country and
all) untouched; if absent, it appends one new active record with a fresh id
and returns that id. -/
theorem c9_get_or_create (tbl : List IndiceRow) (ticker descricao pais : String) :
    (∀ r : IndiceRow, tbl.find? (fun x => x.Ticker == ticker) = some r →
        adicionar_indice tbl ticker descricao pais = (r.IdIndice, tbl))
    ∧ (tbl.find? (fun x => x.Ticker == ticker) = none →
        adicionar_indice tbl ticker descricao pais
          = (nextId tbl, tbl ++ [⟨nextId tbl, ticker, descricao, pais, true⟩])) := by
  constructor
  · intro r h
    unfold adicionar_indice
    rw [h]
  · intro h
    unfold adicionar_indice
    rw [h]

/-- Witness for `c9_get_or_create`: a second call with a different display
name and country returns the old id and changes nothing. -/
theorem c9_witness :
    ([⟨7, "AAA", "old name", "US", true⟩] : List IndiceRow).find?
        (fun x => x.Ticker == "AAA") = some ⟨7, "AAA", "old name", "US", true⟩
    ∧ adicionar_indice [⟨7, "AAA", "old name", "US", true⟩] "AAA" "new name" "BR"
      = (7, [⟨7, "AAA", "old name", "US", true⟩]) := by
  refine ⟨by decide, ?_⟩
  exact (c9_get_or_create [⟨7, "AAA", "old name", "US", true⟩] "AAA" "new name" "BR").1
    ⟨7, "AAA", "old name", "US", true⟩ (by decide)

/-- C10: every bar the collector appends carries a non-NULL volume (a NaN
volume is stored as the integer `0`), and the segment `VolumeTotal` is the
skipna sum of the stored volumes, zeros included. -/
theorem c10_volume (idI : ℕ) (df : List RawRow) (st : Store) :
    (∀ b ∈ (salvar_historico_precos idI df st).st, b ∈ st ∨ ∃ z : ℤ, b.Volume = some z)
    ∧ (∀ r : RawRow, r.Volume = .nan → ∀ p, parseRowFields r = some p → p.volume = 0)
    ∧ (∀ (dados : List DadoRow) (m : Metricas), calcular_metricas_segmento dados = some m →
        m.VolumeTotal = (dados.map (fun r => r.Volume.getD 0)).sum) := by
  refine ⟨?_, ?_, ?_⟩
  · intro b hb
    rcases mem_foldl_st idI df ⟨st, 0, 0⟩ b hb with h | ⟨d, p, rfl⟩
    · exact Or.inl h
    · exact Or.inr ⟨p.volume, rfl⟩
  · intro r hv p hp
    unfold parseRowFields at hp
    cases hA : parseF r.Open <;> rw [hA] at hp
    · cases hp
    cases hH : parseF r.High <;> rw [hH] at hp
    · cases hp
    cases hL : parseF r.Low <;> rw [hL] at hp
    · cases hp
    cases hC : parseF r.Close <;> rw [hC] at hp
    · cases hp
    rw [hv] at hp
    simp only [parseVol, Option.bind_eq_bind, Option.some_bind, Option.pure_def,
      Option.some.injEq] at hp
    rw [← hp]
  · intro dados m hm
    cases dados with
    | nil => cases hm
    | cons r rest =>
      unfold calcular_metricas_segmento at hm
      injection hm with hm
      rw [← hm]

/-- Witness for `c10_volume`: the bar inserted for `rowGood5` has a non-NULL
volume. -/
theorem c10_witness :
    (⟨1, 5, some 1, some 2, some 1, some 10, some 10, some 100⟩ : Bar)
        ∈ (salvar_historico_precos 1 [rowGood5] []).st
    ∧ ((⟨1, 5, some 1, some 2, some 1, some 10, some 10, some 100⟩ : Bar) ∈ ([] : Store)
        ∨ ∃ z : ℤ,
          (⟨1, 5, some 1, some 2, some 1, some 10, some 10, some 100⟩ : Bar).Volume = some z) := by
  refine ⟨by decide, ?_⟩
  exact (c10_volume 1 [rowGood5] []).1
    ⟨1, 5, some 1, some 2, some 1, some 10, some 10, some 100⟩ (by decide)

end Invest
